import Mathlib

/-!
Verification development for the YouTube refresh/aggregation backend in
`src/server/index.js`.  Each definition below is a shallow embedding of the
correspondingly named function from that file.  JavaScript numbers that hold
epoch-millisecond timestamps or counters are modelled as `Int`; fractional
magnitudes feeding the percentage lists are modelled as `ℚ`.  External I/O
(the Supabase job table, report downloads, the OAuth token endpoint) is
modelled by passing the observed outcome of each call as an explicit
argument, and side effects (row inserts, cache writes, the persistence
callback) are returned as part of the result.
-/

namespace Fixated

/-! ## Token Lifecycle Manager (`ensureValidAccessToken`, lines 722-745) -/

/-- One linked external account, as stored in a session or Supabase row.
`expiresAt` is epoch milliseconds with `0` meaning "unknown" (the value
`toNumber` produces for a missing field). -/
structure Connection where
  channelId : String
  channelName : String
  accessToken : String
  refreshToken : String
  expiresAt : Int
deriving DecidableEq, Repr

/-- The outcome of `refreshYouTubeAccessToken` when it does not return
`null`: a fresh access token (non-empty in practice, but the embedding does
not assume that) and its expiry. -/
structure RefreshedToken where
  accessToken : String
  expiresAt : Int
deriving DecidableEq, Repr

/-- Result of `ensureValidAccessToken`.  `persisted = some c` records that
the caller-supplied persistence callback was invoked with the updated
connection `c`; `persisted = none` means the callback was never invoked. -/
structure EnsureTokenResult where
  accessToken : String
  connection : Connection
  persisted : Option Connection
deriving DecidableEq, Repr

/-- Line 732: `!connection.accessToken || (expiresAt && Date.now() >= expiresAt - 60_000)`.
An empty string models a missing/falsy `accessToken`; `expiresAt = 0` is
falsy in JavaScript, so the sentinel disables the expiry comparison. -/
def shouldRefreshToken (now : Int) (c : Connection) : Bool :=
  c.accessToken == "" || (c.expiresAt != 0 && decide (now ≥ c.expiresAt - 60000))

/-- `ensureValidAccessToken` (lines 722-745).  `refreshResult` is the value
the awaited `refreshYouTubeAccessToken` call would produce (`none` models a
`null` return; that helper catches every exception internally, and this
function itself contains no throwing operation, so the embedding is a total
function).  `refreshed?.accessToken` is falsy both when the result is `null`
and when the token field is empty. -/
def ensureValidAccessToken (now : Int) (c : Connection)
    (refreshResult : Option RefreshedToken) : EnsureTokenResult :=
  if !shouldRefreshToken now c then
    { accessToken := c.accessToken, connection := c, persisted := none }
  else
    match refreshResult with
    | none => { accessToken := c.accessToken, connection := c, persisted := none }
    | some r =>
        if r.accessToken == "" then
          { accessToken := c.accessToken, connection := c, persisted := none }
        else
          let updated : Connection :=
            { c with accessToken := r.accessToken, expiresAt := r.expiresAt }
          { accessToken := r.accessToken, connection := updated, persisted := some updated }

/-! ## Aggregation Engine: time-series merge (lines 3989-4005) -/

/-- One point of a merged time series (`{date, views, engagements, posts}`). -/
structure TimePoint where
  date : String
  views : Int
  engagements : Int
  posts : Int
deriving DecidableEq, Repr

/-- `hasNonZeroSeries` (lines 3989-3994): the series has a point whose
views, engagements or posts are strictly positive (`toNumber(x) > 0`). -/
def hasNonZeroSeries (series : List TimePoint) : Bool :=
  series.any fun p => p.views > 0 || p.engagements > 0 || p.posts > 0

/-- `resolvedTimeSeries` (lines 3995-4005): the conditional chain choosing
between the analytics, reporting and snapshot-fallback series. -/
def resolveTimeSeries (analytics reporting fallback : List TimePoint) : List TimePoint :=
  if hasNonZeroSeries analytics then analytics
  else if hasNonZeroSeries reporting then reporting
  else if hasNonZeroSeries fallback then fallback
  else if analytics.length != 0 then analytics
  else if reporting.length != 0 then reporting
  else fallback

/-! ## Refresh Job Orchestrator (lines 4055-4209) -/

/-- `status ∈ {queued, running, succeeded, failed}` of a refresh job row. -/
inductive JobStatus where
  | queued
  | running
  | succeeded
  | failed
deriving DecidableEq, Repr

/-- A terminal status (`succeeded` or `failed`). -/
def JobStatus.isTerminal : JobStatus → Bool
  | .succeeded => true
  | .failed => true
  | _ => false

/-- One `youtube_refresh_jobs` row, restricted to the fields the enqueue
logic reads.  `requestedAt` is the epoch-millisecond value `parseIsoTime`
extracts from the stored `requested_at` string (`0` when unparsable). -/
structure RefreshJob where
  id : Nat
  userId : Nat
  status : JobStatus
  requestedAt : Int
deriving DecidableEq, Repr

/-- The job store: all rows of the `youtube_refresh_jobs` table.  Supabase
reads are modelled as reliable (deterministic over this list); transient
network failures of the read are outside the model. -/
abbrev JobStore := List RefreshJob

/-- `getLatestYouTubeRefreshJobByUserId` (lines 914-925): the Supabase query
`user_id=eq.X&order=requested_at.desc&limit=1`, i.e. the user's row with the
greatest `requested_at` (stable order on ties). -/
def getLatestYouTubeRefreshJobByUserId (store : JobStore) (userId : Nat) :
    Option RefreshJob :=
  (List.insertionSort (fun a b : RefreshJob => b.requestedAt ≤ a.requestedAt)
    (store.filter fun j => j.userId == userId)).head?

/-- The `options` argument of `createAndStartYouTubeRefreshJob` after the
normalisation on lines 4059-4061 (`reuseRunning = options.reuseRunning !== false`,
`minIntervalMs` defaulting to `0`). -/
structure EnqueueOptions where
  trigger : String
  reuseRunning : Bool
  minIntervalMs : Int
deriving DecidableEq, Repr

/-- The value returned by `createAndStartYouTubeRefreshJob`.  On the error
path (`insert` failed) `ok = false` and the other fields are unused. -/
structure EnqueueResult where
  ok : Bool
  jobId : Nat
  status : JobStatus
  deduped : Bool
deriving DecidableEq, Repr

/-- `createAndStartYouTubeRefreshJob` (lines 4055-4115) as a state-passing
function over the job store.  `now` is `Date.now()`, `newId` the row id the
insert would allocate, `insertOk` whether the Supabase insert succeeds.  The
returned store is the table after the call (the detached
`runYouTubeRefreshJob` run is modelled separately by its status-write
trace). -/
def createAndStartYouTubeRefreshJob (store : JobStore) (userId : Nat)
    (opts : EnqueueOptions) (now : Int) (newId : Nat) (insertOk : Bool) :
    EnqueueResult × JobStore :=
  let insertPath : EnqueueResult × JobStore :=
    if insertOk then
      ({ ok := true, jobId := newId, status := .queued, deduped := false },
        store ++ [{ id := newId, userId := userId, status := .queued, requestedAt := now }])
    else
      ({ ok := false, jobId := 0, status := .queued, deduped := false }, store)
  match getLatestYouTubeRefreshJobByUserId store userId with
  | some latest =>
      if opts.reuseRunning && (latest.status == .queued || latest.status == .running) then
        ({ ok := true, jobId := latest.id, status := latest.status, deduped := true }, store)
      else if opts.minIntervalMs > 0 && latest.requestedAt > 0
          && decide (now - latest.requestedAt < opts.minIntervalMs) then
        ({ ok := true, jobId := latest.id, status := latest.status, deduped := true }, store)
      else insertPath
  | none => insertPath

/-- Environment of one `runYouTubeRefreshJob` execution: whether
`loadSupabaseYouTubeConnections` succeeds, how many connections it returns,
and whether `buildLiveYouTubeSummary` throws.  (`upsertCachedYouTubeSummary`
and `updateYouTubeRefreshJob` never throw: `requestSupabaseTable` catches
every fetch error and returns a failure record.) -/
structure RunEnv where
  loadOk : Bool
  numConnections : Nat
  buildThrows : Bool
deriving DecidableEq, Repr

/-- The sequence of values `runYouTubeRefreshJob` (lines 4138-4209) writes
to the job's `status` column, in program order: `running` first (line 4143),
then exactly one terminal write — `failed` when the connection load fails or
the summary build throws (the catch block, line 4204), `succeeded` otherwise
(lines 4169 and 4192).  The `channels_total` update on line 4155 does not
touch `status`. -/
def runYouTubeRefreshJobStatusTrace (env : RunEnv) : List JobStatus :=
  .running ::
    (if !env.loadOk then [.failed]
     else if env.numConnections == 0 then [.succeeded]
     else if env.buildThrows then [.failed]
     else [.succeeded])

/-- The per-job sequence of `status` values written by one enqueue together
with the run it starts: the dedup/cooldown branches and a failed insert
write no status at all; a successful insert writes `queued` (line 4092) and
line 4108 starts `runYouTubeRefreshJob` on the fresh row (its only call
site), whose writes follow.  Status updates are keyed by `(userId, jobId)`,
so writes of distinct jobs never target this row, and the trace is
insensitive to interleaving with other jobs. -/
def jobStatusTrace (store : JobStore) (userId : Nat) (opts : EnqueueOptions)
    (now : Int) (newId : Nat) (insertOk : Bool) (env : RunEnv) : List JobStatus :=
  let r := (createAndStartYouTubeRefreshJob store userId opts now newId insertOk).1
  if r.deduped || !r.ok then []
  else .queued :: runYouTubeRefreshJobStatusTrace env

/-- The transitions the specification allows:
`queued→running`, `running→succeeded`, `running→failed`. -/
def allowedTransition : JobStatus → JobStatus → Bool
  | .queued, .running => true
  | .running, .succeeded => true
  | .running, .failed => true
  | _, _ => false

/-! ## Percentage distributions (`buildPercentList`, lines 3187-3196 and 3854-3862)

The JavaScript `Map` iterated by `[...map.entries()]` is modelled as an
association list in insertion order; its floating-point magnitudes are
idealised as `ℚ`.  `Math.round` rounds half towards positive infinity,
exactly Mathlib's `round` on `ℚ` (`round x = ⌊x + 1/2⌋`), and
`.sort((a, b) => b.value - a.value)` is a stable sort keeping `a` before `b`
iff `b.value ≤ a.value`, modelled by the stable `List.insertionSort`. -/

/-- One `{label, value}` entry of a distribution list. -/
structure PercentEntry where
  label : String
  value : Int
deriving DecidableEq, Repr

/-- The comparator of `.sort((a, b) => b.value - a.value)`. -/
def percentValueDesc (a b : PercentEntry) : Prop := b.value ≤ a.value

instance (a b : PercentEntry) : Decidable (percentValueDesc a b) :=
  inferInstanceAs (Decidable (b.value ≤ a.value))

instance : IsTotal PercentEntry percentValueDesc :=
  ⟨fun a b => le_total b.value a.value⟩

instance : IsTrans PercentEntry percentValueDesc :=
  ⟨fun _ _ _ hab hbc => le_trans hbc hab⟩

/-- `buildPercentList` as defined inside `buildAnalyticsSummary`
(lines 3187-3196): returns `[]` when the total is zero (`if (!total) return []`). -/
def buildPercentList (entries : List (String × ℚ)) : List PercentEntry :=
  let total : ℚ := (entries.map Prod.snd).sum
  if total = 0 then []
  else
    List.insertionSort percentValueDesc
      (entries.map fun e => { label := e.1, value := round (e.2 / total * 100) })

/-- `buildPercentList` as defined inside `buildReportingSummary`
(lines 3854-3862): when the total is zero each raw magnitude is rounded
directly (`total ? Math.round((value / total) * 100) : Math.round(value)`). -/
def buildPercentListReporting (entries : List (String × ℚ)) : List PercentEntry :=
  let total : ℚ := (entries.map Prod.snd).sum
  List.insertionSort percentValueDesc
    (entries.map fun e =>
      { label := e.1,
        value := if total ≠ 0 then round (e.2 / total * 100) else round e.2 })

/-! ## CSV parsing (`parseCsvRows`, lines 3222-3271) -/

/-- The characters removed by JavaScript's `String.prototype.trim`
(WhiteSpace and LineTerminator code points). -/
def jsWhitespaceChar (c : Char) : Bool :=
  c == ' ' || c == '\t' || c == '\x0b' || c == '\x0c' || c == '\n' || c == '\r'
    || c.toNat == 0xa0 || c.toNat == 0x1680
    || (0x2000 ≤ c.toNat && c.toNat ≤ 0x200a)
    || c.toNat == 0x2028 || c.toNat == 0x2029 || c.toNat == 0x202f
    || c.toNat == 0x205f || c.toNat == 0x3000 || c.toNat == 0xfeff

/-- `value.trim().length > 0`: the string has a character that JavaScript
`trim` does not remove. -/
def hasNonWhitespace (s : String) : Bool :=
  s.toList.any fun c => !jsWhitespaceChar c

/-- `row.some((value) => value.trim().length > 0)` (lines 3252 and 3265). -/
def rowHasContent (row : List String) : Bool :=
  row.any hasNonWhitespace

/-- The character loop of `parseCsvRows` (lines 3229-3268), consuming the
remaining characters given the accumulated fields of the current row, the
current field, and the `inQuotes` flag.  Each match arm corresponds to one
branch of the loop body; the two-character arms model the `i += 1`
lookahead skips. -/
def parseCsvRowsAux : List Char → List String → String → Bool → List (List String)
  | [], row, current, _ =>
      if current.length != 0 || row.length != 0 then
        let finalRow := row ++ [current]
        if rowHasContent finalRow then [finalRow] else []
      else []
  | '"' :: '"' :: rest, row, current, true =>
      parseCsvRowsAux rest row (current.push '"') true
  | '"' :: rest, row, current, inQuotes =>
      parseCsvRowsAux rest row current (!inQuotes)
  | ',' :: rest, row, current, false =>
      parseCsvRowsAux rest (row ++ [current]) "" false
  | '\r' :: '\n' :: rest, row, current, false =>
      let finalRow := row ++ [current]
      (if rowHasContent finalRow then [finalRow] else []) ++ parseCsvRowsAux rest [] "" false
  | '\r' :: rest, row, current, false =>
      let finalRow := row ++ [current]
      (if rowHasContent finalRow then [finalRow] else []) ++ parseCsvRowsAux rest [] "" false
  | '\n' :: rest, row, current, false =>
      let finalRow := row ++ [current]
      (if rowHasContent finalRow then [finalRow] else []) ++ parseCsvRowsAux rest [] "" false
  | c :: rest, row, current, inQuotes =>
      parseCsvRowsAux rest row (current.push c) inQuotes

/-- `parseCsvRows` (lines 3222-3271).  `if (!content) return []` is the
empty-string guard. -/
def parseCsvRows (content : String) : List (List String) :=
  if content == "" then [] else parseCsvRowsAux content.toList [] "" false

/-- `parseReportingCsv` (lines 3273-3278): first row (trimmed) as headers,
the rest as data rows.  JavaScript `trim` is modelled by dropping
`jsWhitespaceChar` characters from both ends. -/
def jsTrim (s : String) : String :=
  ⟨(s.toList.dropWhile jsWhitespaceChar).reverse.dropWhile jsWhitespaceChar |>.reverse⟩

/-- `parseReportingCsv` (lines 3273-3278). -/
def parseReportingCsv (content : String) : List String × List (List String) :=
  match parseCsvRows content with
  | [] => ([], [])
  | first :: rest => (first.map jsTrim, rest)

/-! ## Reporting Job Manager: export selection (`getReportingDataForJob`, lines 3631-3671) -/

/-- One entry of the list returned by `listReportingReports`: an external
export.  `id = ""` models a missing id and `downloadUrl = ""` a missing
download URL (both falsy in the source).  `time` is the epoch value
`new Date(createTime || startTime || 0).getTime()` used both for ordering
and (as the model of the `createTime || startTime || ''` string) for the
`createdAt` field of the parsed record. -/
structure ReportRef where
  id : String
  downloadUrl : String
  time : Int
deriving DecidableEq, Repr

/-- A `ParsedReportCache` entry `{reportId, createdAt, data}` for data rows
of type `α` (the element type produced by the row parsing function passed
to `getReportingDataForJob`). -/
structure ParsedReport (α : Type) where
  reportId : String
  createdAt : Int
  data : List α
deriving DecidableEq, Repr

/-- The comparator of the sort on lines 3633-3637 (`bTime - aTime`):
a stable descending sort by report time. -/
def reportTimeDesc (a b : ReportRef) : Prop := b.time ≤ a.time

instance (a b : ReportRef) : Decidable (reportTimeDesc a b) :=
  inferInstanceAs (Decidable (b.time ≤ a.time))

instance : IsTotal ReportRef reportTimeDesc :=
  ⟨fun a b => le_total b.time a.time⟩

instance : IsTrans ReportRef reportTimeDesc :=
  ⟨fun _ _ _ hab hbc => le_trans hbc hab⟩

/-- Downloading and parsing one export (lines 3648-3655): `download` maps a
download URL to the CSV text `downloadReportingReport` returns, and
`parseFn` is the `parser` argument mapping `(headers, rows)` to data rows. -/
def parsedReportOf {α : Type} (download : String → String)
    (parseFn : List String → List (List String) → List α) (r : ReportRef) :
    ParsedReport α :=
  let parsed := parseReportingCsv (download r.downloadUrl)
  { reportId := r.id, createdAt := r.time, data := parseFn parsed.1 parsed.2 }

/-- The scan loop of lines 3645-3668 over the (already sorted and
truncated) report list, threading `fallbackEmptyReport`.  Returns the
parsed report that is cached and returned, or `none` when the loop falls
through with no fallback. -/
def scanReports {α : Type} (download : String → String)
    (parseFn : List String → List (List String) → List α) :
    List ReportRef → Option (ParsedReport α) → Option (ParsedReport α)
  | [], fallbackEmpty => fallbackEmpty
  | r :: rest, fallbackEmpty =>
      if r.downloadUrl == "" || r.id == "" then
        scanReports download parseFn rest fallbackEmpty
      else
        let parsed := parsedReportOf download parseFn r
        if parsed.data.length != 0 then some parsed
        else
          scanReports download parseFn rest
            (match fallbackEmpty with
             | none => some parsed
             | some fb => some fb)

/-- `getReportingDataForJob` (lines 3631-3671) with its session cache made
explicit: `cached` is what `getCachedReportData` returns, and the second
component of the result is the cache after the call (`cacheReportData`
writes it on lines 3657 and 3666).  The first component is the returned
parsed report (`none` models the `null` returns). -/
def getReportingDataForJob {α : Type} (reports : List ReportRef)
    (cached : Option (ParsedReport α)) (download : String → String)
    (parseFn : List String → List (List String) → List α) :
    Option (ParsedReport α) × Option (ParsedReport α) :=
  let orderedReports := List.insertionSort reportTimeDesc reports
  if orderedReports.length == 0 then (none, cached)
  else
    match cached with
    | some c =>
        if c.reportId != "" && orderedReports.any (fun r => r.id == c.reportId) then
          (some c, cached)
        else
          match scanReports download parseFn (orderedReports.take 12) none with
          | some p => (some p, some p)
          | none => (none, cached)
    | none =>
        match scanReports download parseFn (orderedReports.take 12) none with
        | some p => (some p, some p)
        | none => (none, cached)

/-! ## Summary Cache & Staleness Trigger (lines 594-595, 4117-4136, 4413-4475)

The endpoint passes the six summary arrays through verbatim, so their
element type is kept abstract (`α`); `normalizeCachedSummaryPayload`'s
`Array.isArray` checks are modelled by `Option` fields. -/

/-- `YOUTUBE_AUTO_REFRESH_INTERVAL_MS` (line 594). -/
def YOUTUBE_AUTO_REFRESH_INTERVAL_MS : Int := 24 * 60 * 60 * 1000

/-- `YOUTUBE_AUTO_REFRESH_RETRY_COOLDOWN_MS` (line 595). -/
def YOUTUBE_AUTO_REFRESH_RETRY_COOLDOWN_MS : Int := 10 * 60 * 1000

/-- The six arrays of a normalized summary. -/
structure SummaryFields (α : Type) where
  channels : List α
  topPosts : List α
  timeSeries : List α
  ageDistribution : List α
  genderDistribution : List α
  topGeos : List α
deriving DecidableEq, Repr

/-- The cached `summary_json` object: each field is `some` when the stored
value is an array (`Array.isArray`) and `none` otherwise. -/
structure CachedPayload (α : Type) where
  channels : Option (List α)
  topPosts : Option (List α)
  timeSeries : Option (List α)
  ageDistribution : Option (List α)
  genderDistribution : Option (List α)
  topGeos : Option (List α)
deriving DecidableEq, Repr

/-- `buildEmptyYouTubeSummary` (lines 4021-4028). -/
def buildEmptyYouTubeSummary (α : Type) : SummaryFields α :=
  { channels := [], topPosts := [], timeSeries := [], ageDistribution := [],
    genderDistribution := [], topGeos := [] }

/-- `normalizeCachedSummaryPayload` (lines 4030-4041): a non-object payload
yields the empty summary; otherwise non-array fields are replaced by `[]`. -/
def normalizeCachedSummaryPayload {α : Type} (payload : Option (CachedPayload α)) :
    SummaryFields α :=
  match payload with
  | none => buildEmptyYouTubeSummary α
  | some p =>
      { channels := p.channels.getD [],
        topPosts := p.topPosts.getD [],
        timeSeries := p.timeSeries.getD [],
        ageDistribution := p.ageDistribution.getD [],
        genderDistribution := p.genderDistribution.getD [],
        topGeos := p.topGeos.getD [] }

/-- One `youtube_cached_summaries` row as read by the endpoint:
`summaryJson` is `summary_json` (nullable) and `generatedAt` the
epoch-millisecond value `parseIsoTime` extracts from `generated_at`
(`0` when the column is absent or unparsable). -/
structure SummaryCacheRow (α : Type) where
  summaryJson : Option (CachedPayload α)
  generatedAt : Int
deriving DecidableEq, Repr

/-- The `autoRefresh` object of the response. -/
structure AutoRefreshInfo where
  queued : Bool
  jobId : Option Nat
  status : Option JobStatus
deriving DecidableEq, Repr

/-- `maybeQueueAutoYouTubeRefresh` (lines 4117-4136) as a state-passing
function over the job store.  `userId = 0` models a falsy `userId`.
`newId`/`insertOk` parametrise the enqueue exactly as in
`createAndStartYouTubeRefreshJob`. -/
def maybeQueueAutoYouTubeRefresh (store : JobStore) (userId : Nat)
    (hasConnections : Bool) (generatedAt : Int) (now : Int) (newId : Nat)
    (insertOk : Bool) : AutoRefreshInfo × JobStore :=
  if userId == 0 || !hasConnections then
    ({ queued := false, jobId := none, status := none }, store)
  else
    let isStale := generatedAt ≤ 0 || now - generatedAt ≥ YOUTUBE_AUTO_REFRESH_INTERVAL_MS
    if !isStale then ({ queued := false, jobId := none, status := none }, store)
    else
      let queuedResult := createAndStartYouTubeRefreshJob store userId
        { trigger := "auto", reuseRunning := true,
          minIntervalMs := YOUTUBE_AUTO_REFRESH_RETRY_COOLDOWN_MS } now newId insertOk
      if !queuedResult.1.ok then
        ({ queued := false, jobId := none, status := none }, queuedResult.2)
      else
        ({ queued := true, jobId := some queuedResult.1.jobId,
           status := some queuedResult.1.status }, queuedResult.2)

/-- The JSON body of a `GET /api/youtube/summary` response (for an
authenticated user; viewer resolution and its 401 path are outside the
model). -/
structure SummaryResponse (α : Type) where
  summary : SummaryFields α
  cacheStatus : String
  generatedAt : Option Int
  autoRefresh : AutoRefreshInfo
deriving DecidableEq, Repr

/-- The `GET /api/youtube/summary` handler (lines 4413-4475) after viewer
resolution, as a state-passing function over the job store.  `cacheReadOk`
and `cachedRow` model `getCachedYouTubeSummaryByUserId`; `connectionsOk`
and `connectionCount` model `loadSupabaseYouTubeConnections`.  The enqueue
started by `maybeQueueAutoYouTubeRefresh` is detached (`void run…`), so the
response is computed from the cache row read before it; the returned store
reflects any inserted job row. -/
def getYouTubeSummaryEndpoint {α : Type} (store : JobStore) (userId : Nat)
    (cacheReadOk : Bool) (cachedRow : Option (SummaryCacheRow α))
    (connectionsOk : Bool) (connectionCount : Nat) (now : Int) (newId : Nat)
    (insertOk : Bool) : SummaryResponse α × JobStore :=
  if !cacheReadOk then
    ({ summary := buildEmptyYouTubeSummary α, cacheStatus := "error",
       generatedAt := none,
       autoRefresh := { queued := false, jobId := none, status := none } }, store)
  else
    let hasConnections := connectionsOk && decide (connectionCount > 0)
    let generatedAtValue := (cachedRow.map (·.generatedAt)).getD 0
    let autoResult := maybeQueueAutoYouTubeRefresh store userId hasConnections
      generatedAtValue now newId insertOk
    let auto := autoResult.1
    let store' := autoResult.2
    let autoField : AutoRefreshInfo :=
      if auto.queued then { queued := true, jobId := auto.jobId, status := auto.status }
      else { queued := false, jobId := none, status := none }
    match cachedRow with
    | none =>
        ({ summary := buildEmptyYouTubeSummary α, cacheStatus := "empty",
           generatedAt := none, autoRefresh := autoField }, store')
    | some row =>
        match row.summaryJson with
        | none =>
            ({ summary := buildEmptyYouTubeSummary α, cacheStatus := "empty",
               generatedAt := none, autoRefresh := autoField }, store')
        | some payload =>
            ({ summary := normalizeCachedSummaryPayload (some payload),
               cacheStatus := "ready", generatedAt := some row.generatedAt,
               autoRefresh := autoField }, store')

/-! ## Theorems -/

/-- C1: if the user's most recent refresh job is `queued` or `running` and
`reuseRunning` is requested, `createAndStartYouTubeRefreshJob` returns that
job's id with `deduped = true` and leaves the job store unchanged (no new
row is inserted). -/
theorem enqueue_dedups_active_job (store : JobStore) (userId : Nat)
    (opts : EnqueueOptions) (now : Int) (newId : Nat) (insertOk : Bool)
    (j : RefreshJob)
    (hlatest : getLatestYouTubeRefreshJobByUserId store userId = some j)
    (hactive : j.status = .queued ∨ j.status = .running)
    (hreuse : opts.reuseRunning = true) :
    (createAndStartYouTubeRefreshJob store userId opts now newId insertOk).1.ok = true ∧
    (createAndStartYouTubeRefreshJob store userId opts now newId insertOk).1.jobId = j.id ∧
    (createAndStartYouTubeRefreshJob store userId opts now newId insertOk).1.deduped = true ∧
    (createAndStartYouTubeRefreshJob store userId opts now newId insertOk).2 = store := by
  unfold createAndStartYouTubeRefreshJob
  rw [hlatest]
  rcases hactive with h | h <;> simp [h, hreuse]

/-- Witness for C1: a store whose only job for user 1 is `running`. -/
theorem enqueue_dedups_active_job_witness :
    (createAndStartYouTubeRefreshJob [⟨5, 1, .running, 100⟩] 1
        ⟨"manual", true, 0⟩ 200 9 true).1.jobId = 5 ∧
    (createAndStartYouTubeRefreshJob [⟨5, 1, .running, 100⟩] 1
        ⟨"manual", true, 0⟩ 200 9 true).1.deduped = true ∧
    (createAndStartYouTubeRefreshJob [⟨5, 1, .running, 100⟩] 1
        ⟨"manual", true, 0⟩ 200 9 true).2 = [⟨5, 1, .running, 100⟩] := by
  have h := enqueue_dedups_active_job [⟨5, 1, .running, 100⟩] 1
    ⟨"manual", true, 0⟩ 200 9 true ⟨5, 1, .running, 100⟩ (by decide)
    (Or.inr rfl) rfl
  exact ⟨h.2.1, h.2.2.1, h.2.2.2⟩

/-- C2: when a minimum-interval cooldown is configured and the most recent
job was requested within that interval of now, the prior job's id is
returned with `deduped = true` and no row is inserted — whatever the prior
job's status, including `succeeded` and `failed`. -/
theorem enqueue_cooldown_returns_latest (store : JobStore) (userId : Nat)
    (opts : EnqueueOptions) (now : Int) (newId : Nat) (insertOk : Bool)
    (j : RefreshJob)
    (hlatest : getLatestYouTubeRefreshJobByUserId store userId = some j)
    (hmin : 0 < opts.minIntervalMs)
    (hreq : 0 < j.requestedAt)
    (hwin : now - j.requestedAt < opts.minIntervalMs) :
    (createAndStartYouTubeRefreshJob store userId opts now newId insertOk).1.ok = true ∧
    (createAndStartYouTubeRefreshJob store userId opts now newId insertOk).1.jobId = j.id ∧
    (createAndStartYouTubeRefreshJob store userId opts now newId insertOk).1.deduped = true ∧
    (createAndStartYouTubeRefreshJob store userId opts now newId insertOk).2 = store := by
  unfold createAndStartYouTubeRefreshJob
  rw [hlatest]
  by_cases hb : (opts.reuseRunning && (j.status == JobStatus.queued
      || j.status == JobStatus.running)) = true
  · simp [hb]
  · simp [hb, hmin, hreq, hwin]

/-- Witness for C2: the latest job is terminal (`failed`) and 1 ms old with
a 10-minute cooldown. -/
theorem enqueue_cooldown_returns_latest_witness :
    (createAndStartYouTubeRefreshJob [⟨7, 2, .failed, 1000⟩] 2
        ⟨"auto", true, 600000⟩ 1001 9 true).1.jobId = 7 ∧
    (createAndStartYouTubeRefreshJob [⟨7, 2, .failed, 1000⟩] 2
        ⟨"auto", true, 600000⟩ 1001 9 true).1.deduped = true ∧
    (createAndStartYouTubeRefreshJob [⟨7, 2, .failed, 1000⟩] 2
        ⟨"auto", true, 600000⟩ 1001 9 true).2 = [⟨7, 2, .failed, 1000⟩] := by
  have h := enqueue_cooldown_returns_latest [⟨7, 2, .failed, 1000⟩] 2
    ⟨"auto", true, 600000⟩ 1001 9 true ⟨7, 2, .failed, 1000⟩ (by decide)
    (by decide) (by decide) (by decide)
  exact ⟨h.2.1, h.2.2.1, h.2.2.2⟩

/-- C3: over the step relation formed by enqueue (which inserts `queued`)
and the status writes of `runYouTubeRefreshJob`, every consecutive pair of
status writes of a job is one of `queued→running`, `running→succeeded`,
`running→failed` (so in particular no write of `queued` or `running` ever
follows a terminal status), and a nonempty trace starts at `queued`. -/
theorem refresh_job_status_trace_valid (store : JobStore) (userId : Nat)
    (opts : EnqueueOptions) (now : Int) (newId : Nat) (insertOk : Bool)
    (env : RunEnv) :
    List.Chain' (fun a b => allowedTransition a b = true)
      (jobStatusTrace store userId opts now newId insertOk env) ∧
    (jobStatusTrace store userId opts now newId insertOk env = [] ∨
      (jobStatusTrace store userId opts now newId insertOk env).head? =
        some JobStatus.queued) := by
  unfold jobStatusTrace
  by_cases h : ((createAndStartYouTubeRefreshJob store userId opts now newId insertOk).1.deduped
      || !(createAndStartYouTubeRefreshJob store userId opts now newId insertOk).1.ok) = true
  · simp [h]
  · rcases env with ⟨lo, n, bt⟩
    unfold runYouTubeRefreshJobStatusTrace
    cases lo <;> cases bt <;> rcases n with _ | n <;>
      simp [h, allowedTransition]

/-- C4: when the analytics series has no point passing the nonzero test
(views, engagements or posts `> 0` after `toNumber`) and the reporting
series has at least one such point, the merged `timeSeries` is exactly the
reporting series — the same list, hence the same points in the same order. -/
theorem merged_series_prefers_reporting (analytics reporting fallback : List TimePoint)
    (ha : hasNonZeroSeries analytics = false)
    (hr : hasNonZeroSeries reporting = true) :
    resolveTimeSeries analytics reporting fallback = reporting := by
  unfold resolveTimeSeries
  simp [ha, hr]

/-- Witness for C4: an all-zero analytics series, a reporting series with
views, and a nonempty snapshot fallback. -/
theorem merged_series_prefers_reporting_witness :
    resolveTimeSeries [⟨"Jan 1", 0, 0, 0⟩]
        [⟨"Jan 2", 5, 1, 1⟩, ⟨"Jan 3", 0, 0, 0⟩] [⟨"Jan 4", 9, 9, 9⟩] =
      [⟨"Jan 2", 5, 1, 1⟩, ⟨"Jan 3", 0, 0, 0⟩] :=
  merged_series_prefers_reporting _ _ _ (by decide) (by decide)

/-- C8: when a refresh is needed but the refresh-token exchange fails to
produce an access token (a `null` result or an empty token), the function
returns the stored (possibly expired) token with the connection unchanged
and never invokes the persistence callback.  The embedding is a total
function: `refreshYouTubeAccessToken` catches all of its exceptions, so no
error propagates to the caller. -/
theorem token_refresh_failure_falls_back (now : Int) (c : Connection)
    (refreshResult : Option RefreshedToken)
    (hneed : shouldRefreshToken now c = true)
    (hfail : refreshResult = none ∨
      ∃ r, refreshResult = some r ∧ r.accessToken = "") :
    ensureValidAccessToken now c refreshResult =
      { accessToken := c.accessToken, connection := c, persisted := none } := by
  unfold ensureValidAccessToken
  rcases hfail with h | ⟨r, h, hr⟩
  · simp [h, hneed]
  · simp [h, hneed, hr]

/-- Witness for C8: an expired connection whose token exchange returns
`null`. -/
theorem token_refresh_failure_falls_back_witness :
    ensureValidAccessToken 1000000 ⟨"ch", "Chan", "tok", "ref", 500⟩ none =
      { accessToken := "tok", connection := ⟨"ch", "Chan", "tok", "ref", 500⟩,
        persisted := none } :=
  token_refresh_failure_falls_back 1000000 ⟨"ch", "Chan", "tok", "ref", 500⟩ none
    (by decide) (Or.inl rfl)

/-- C9: a connection with a non-empty access token and the `expiresAt = 0`
sentinel is never refreshed: for every current time and every possible
outcome of the token exchange, the expiry check is disabled and the stored
token and connection are returned unchanged with no persistence. -/
theorem zero_expiry_sentinel_skips_refresh (c : Connection)
    (htok : c.accessToken ≠ "") (hexp : c.expiresAt = 0) :
    ∀ (now : Int) (refreshResult : Option RefreshedToken),
      shouldRefreshToken now c = false ∧
      ensureValidAccessToken now c refreshResult =
        { accessToken := c.accessToken, connection := c, persisted := none } := by
  intro now rr
  have h : shouldRefreshToken now c = false := by
    unfold shouldRefreshToken
    simp [hexp, htok]
  refine ⟨h, ?_⟩
  unfold ensureValidAccessToken
  rw [h]
  rfl

/-- Witness for C9: `expiresAt = 0` with a huge current time and a
would-be-successful exchange outcome, which is ignored. -/
theorem zero_expiry_sentinel_skips_refresh_witness :
    shouldRefreshToken 99999999999 ⟨"ch", "Chan", "tok", "ref", 0⟩ = false ∧
    ensureValidAccessToken 99999999999 ⟨"ch", "Chan", "tok", "ref", 0⟩
        (some ⟨"newtok", 123⟩) =
      { accessToken := "tok", connection := ⟨"ch", "Chan", "tok", "ref", 0⟩,
        persisted := none } :=
  zero_expiry_sentinel_skips_refresh ⟨"ch", "Chan", "tok", "ref", 0⟩
    (by decide) rfl 99999999999 (some ⟨"newtok", 123⟩)

/-- Helper for C10: every row the character loop emits passes the
`rowHasContent` guard, whatever the accumulators. -/
theorem parseCsvRowsAux_rows_have_content (content : List Char)
    (rowAcc : List String) (current : String) (inQuotes : Bool) :
    ∀ row ∈ parseCsvRowsAux content rowAcc current inQuotes,
      rowHasContent row = true := by
  induction content, rowAcc, current, inQuotes using parseCsvRowsAux.induct with
  | case1 rowAcc current inQuotes hguard finalRow hcontent =>
      intro row hrow
      rw [parseCsvRowsAux.eq_1, if_pos hguard, if_pos hcontent] at hrow
      simp only [List.mem_singleton] at hrow
      subst hrow
      exact hcontent
  | case2 rowAcc current inQuotes hguard finalRow hcontent =>
      intro row hrow
      rw [parseCsvRowsAux.eq_1, if_pos hguard, if_neg hcontent] at hrow
      simp at hrow
  | case3 rowAcc current inQuotes hguard =>
      intro row hrow
      rw [parseCsvRowsAux.eq_1, if_neg hguard] at hrow
      simp at hrow
  | case4 rest rowAcc current ih =>
      intro row hrow
      rw [parseCsvRowsAux.eq_2] at hrow
      exact ih row hrow
  | case5 rest rowAcc current inQuotes hside ih =>
      intro row hrow
      rw [parseCsvRowsAux.eq_3 rowAcc current inQuotes rest hside] at hrow
      exact ih row hrow
  | case6 rest rowAcc current ih =>
      intro row hrow
      rw [parseCsvRowsAux.eq_4] at hrow
      exact ih row hrow
  | case7 rest rowAcc current ih =>
      intro row hrow
      rw [parseCsvRowsAux.eq_5] at hrow
      rcases List.mem_append.mp hrow with h | h
      · by_cases hc : rowHasContent (rowAcc ++ [current]) = true
        · rw [if_pos hc] at h
          simp only [List.mem_singleton] at h
          subst h
          exact hc
        · rw [if_neg hc] at h
          simp at h
      · exact ih row h
  | case8 rest rowAcc current hside ih =>
      intro row hrow
      rw [parseCsvRowsAux.eq_6 rowAcc current rest hside] at hrow
      rcases List.mem_append.mp hrow with h | h
      · by_cases hc : rowHasContent (rowAcc ++ [current]) = true
        · rw [if_pos hc] at h
          simp only [List.mem_singleton] at h
          subst h
          exact hc
        · rw [if_neg hc] at h
          simp at h
      · exact ih row h
  | case9 rest rowAcc current ih =>
      intro row hrow
      rw [parseCsvRowsAux.eq_7] at hrow
      rcases List.mem_append.mp hrow with h | h
      · by_cases hc : rowHasContent (rowAcc ++ [current]) = true
        · rw [if_pos hc] at h
          simp only [List.mem_singleton] at h
          subst h
          exact hc
        · rw [if_neg hc] at h
          simp at h
      · exact ih row h
  | case10 c rest rowAcc current inQuotes h1 h2 h3 h4 h5 h6 ih =>
      intro row hrow
      rw [parseCsvRowsAux.eq_8 rowAcc current inQuotes c rest h2 h1 h3 h4 h5 h6] at hrow
      exact ih row hrow

/-- C10: every row returned by `parseCsvRows` contains at least one field
with a character JavaScript `trim` would keep; rows whose fields are all
empty or whitespace (blank lines, the CRLF/LF separators themselves, and
the trailing line terminator) are dropped and never appear in the output. -/
theorem parseCsvRows_rows_have_content (content : String) :
    ∀ row ∈ parseCsvRows content, ∃ field ∈ row, hasNonWhitespace field = true := by
  intro row hrow
  unfold parseCsvRows at hrow
  split at hrow
  · simp at hrow
  · have h := parseCsvRowsAux_rows_have_content content.toList [] "" false row hrow
    exact List.any_eq_true.mp h

/-- Witness for C10: a two-line CSV whose second line is all whitespace;
the only surviving row is `["a", "b"]` and it has a non-whitespace field. -/
theorem parseCsvRows_rows_have_content_witness :
    ∃ field ∈ ["a", "b"], hasNonWhitespace field = true :=
  parseCsvRows_rows_have_content "a,b\n ,\n" ["a", "b"] (by decide)

/-- Helper: when the Supabase insert succeeds, every path of the enqueue
returns `ok = true` (the dedup and cooldown paths do so unconditionally). -/
theorem enqueue_ok_of_insertOk (store : JobStore) (userId : Nat)
    (opts : EnqueueOptions) (now : Int) (newId : Nat) :
    (createAndStartYouTubeRefreshJob store userId opts now newId true).1.ok = true := by
  unfold createAndStartYouTubeRefreshJob
  cases getLatestYouTubeRefreshJobByUserId store userId with
  | none => simp
  | some latest =>
      dsimp only
      split_ifs <;> simp_all

/-- Helper: the auto-refresh trigger reports `queued = true` for a user with
connections and a stale cache timestamp when the insert succeeds. -/
theorem maybeQueue_queued_of_stale (store : JobStore) (userId : Nat)
    (generatedAt : Int) (now : Int) (newId : Nat)
    (huser : userId ≠ 0)
    (hstale : generatedAt ≤ 0 ∨ now - generatedAt ≥ YOUTUBE_AUTO_REFRESH_INTERVAL_MS) :
    (maybeQueueAutoYouTubeRefresh store userId true generatedAt now newId true).1.queued
      = true := by
  unfold maybeQueueAutoYouTubeRefresh
  have huser' : (userId == 0) = false := by
    simp [huser]
  have hok := enqueue_ok_of_insertOk store userId
    { trigger := "auto", reuseRunning := true,
      minIntervalMs := YOUTUBE_AUTO_REFRESH_RETRY_COOLDOWN_MS } now newId
  rcases hstale with h | h <;>
    simp [huser', h, hok]

/-- C7: reading the summary endpoint with a well-formed cached summary whose
`generatedAt` is at least 24 hours old and at least one connection returns
the cached summary data unchanged with `cacheStatus = "ready"` (it never
waits for the refresh it triggers) and reports `autoRefresh.queued = true`. -/
theorem stale_cache_read_returns_cache_and_queues {α : Type} (store : JobStore)
    (userId : Nat) (payload : CachedPayload α) (row : SummaryCacheRow α)
    (connectionCount : Nat) (now : Int) (newId : Nat)
    (chs tps ts ad gd tg : List α)
    (hrow : row.summaryJson = some payload)
    (hch : payload.channels = some chs) (htp : payload.topPosts = some tps)
    (hts : payload.timeSeries = some ts) (had : payload.ageDistribution = some ad)
    (hgd : payload.genderDistribution = some gd) (htg : payload.topGeos = some tg)
    (huser : userId ≠ 0)
    (hconn : 1 ≤ connectionCount)
    (hstale : now - row.generatedAt ≥ YOUTUBE_AUTO_REFRESH_INTERVAL_MS) :
    (getYouTubeSummaryEndpoint store userId true (some row) true connectionCount
        now newId true).1.cacheStatus = "ready" ∧
    (getYouTubeSummaryEndpoint store userId true (some row) true connectionCount
        now newId true).1.summary =
      { channels := chs, topPosts := tps, timeSeries := ts, ageDistribution := ad,
        genderDistribution := gd, topGeos := tg } ∧
    (getYouTubeSummaryEndpoint store userId true (some row) true connectionCount
        now newId true).1.generatedAt = some row.generatedAt ∧
    (getYouTubeSummaryEndpoint store userId true (some row) true connectionCount
        now newId true).1.autoRefresh.queued = true := by
  have hq := maybeQueue_queued_of_stale store userId row.generatedAt now newId huser
    (Or.inr hstale)
  have hcount : decide (connectionCount > 0) = true := by
    simp
    omega
  unfold getYouTubeSummaryEndpoint
  simp only [Bool.not_true, Bool.false_eq_true, if_false, Option.map_some,
    Option.getD_some, Bool.true_and, hcount]
  rw [hrow]
  refine ⟨rfl, ?_, rfl, ?_⟩
  · have hnorm : normalizeCachedSummaryPayload (some payload) =
        { channels := payload.channels.getD [], topPosts := payload.topPosts.getD [],
          timeSeries := payload.timeSeries.getD [],
          ageDistribution := payload.ageDistribution.getD [],
          genderDistribution := payload.genderDistribution.getD [],
          topGeos := payload.topGeos.getD [] } := rfl
    dsimp only
    rw [hnorm, hch, htp, hts, had, hgd, htg]
    rfl
  · simp [hq]

/-- Witness for C7: a one-connection user whose cache is 25 hours old. -/
theorem stale_cache_read_returns_cache_and_queues_witness :
    (getYouTubeSummaryEndpoint ([] : JobStore) 1 true
        (some ⟨some ⟨some [10], some [20], some [30], some [40], some [50], some [60]⟩,
          4096⟩) true 1 (4096 + 25 * 60 * 60 * 1000) 7 true).1.cacheStatus = "ready" ∧
    (getYouTubeSummaryEndpoint ([] : JobStore) 1 true
        (some ⟨some ⟨some [10], some [20], some [30], some [40], some [50], some [60]⟩,
          4096⟩) true 1 (4096 + 25 * 60 * 60 * 1000) 7 true).1.summary =
      ⟨[10], [20], [30], [40], [50], [60]⟩ ∧
    (getYouTubeSummaryEndpoint ([] : JobStore) 1 true
        (some ⟨some ⟨some [10], some [20], some [30], some [40], some [50], some [60]⟩,
          4096⟩) true 1 (4096 + 25 * 60 * 60 * 1000) 7 true).1.autoRefresh.queued
      = true := by
  have h := stale_cache_read_returns_cache_and_queues ([] : JobStore) 1
    ⟨some [10], some [20], some [30], some [40], some [50], some [60]⟩
    ⟨some ⟨some [10], some [20], some [30], some [40], some [50], some [60]⟩, 4096⟩
    1 (4096 + 25 * 60 * 60 * 1000) 7 [10] [20] [30] [40] [50] [60]
    rfl rfl rfl rfl rfl rfl rfl (by decide) (by decide) (by decide)
  exact ⟨h.1, h.2.1, h.2.2.2⟩

/-- Helper for C6: when every report of the list parses to zero data rows,
an already-recorded fallback survives the scan unchanged. -/
theorem scanReports_all_empty_some {α : Type} (download : String → String)
    (parseFn : List String → List (List String) → List α) (l : List ReportRef)
    (hvalid : ∀ r ∈ l, r.id ≠ "" ∧ r.downloadUrl ≠ "")
    (hempty : ∀ r ∈ l, (parsedReportOf download parseFn r).data = [])
    (f : ParsedReport α) :
    scanReports download parseFn l (some f) = some f := by
  induction l with
  | nil => rfl
  | cons r rest ih =>
      have hr := hvalid r (List.mem_cons_self r rest)
      have hskip : (r.downloadUrl == "" || r.id == "") = false := by
        simp [hr.1, hr.2]
      have hre : (parsedReportOf download parseFn r).data = [] :=
        hempty r (List.mem_cons_self r rest)
      unfold scanReports
      rw [hskip]
      simp only [Bool.false_eq_true, if_false, hre]
      exact ih (fun r' h => hvalid r' (List.mem_cons_of_mem r h))
        (fun r' h => hempty r' (List.mem_cons_of_mem r h))

/-- Helper for C6: when every scanned report is downloadable with an id and
parses to zero data rows, the scan starting with no fallback yields the
first (most recent) report's empty parse. -/
theorem scanReports_all_empty_none {α : Type} (download : String → String)
    (parseFn : List String → List (List String) → List α)
    (r : ReportRef) (rest : List ReportRef)
    (hvalid : ∀ r' ∈ r :: rest, r'.id ≠ "" ∧ r'.downloadUrl ≠ "")
    (hempty : ∀ r' ∈ r :: rest, (parsedReportOf download parseFn r').data = []) :
    scanReports download parseFn (r :: rest) none =
      some (parsedReportOf download parseFn r) := by
  have hr := hvalid r (List.mem_cons_self r rest)
  have hskip : (r.downloadUrl == "" || r.id == "") = false := by
    simp [hr.1, hr.2]
  have hre : (parsedReportOf download parseFn r).data = [] :=
    hempty r (List.mem_cons_self r rest)
  unfold scanReports
  rw [hskip]
  simp only [Bool.false_eq_true, if_false, hre]
  exact scanReports_all_empty_some download parseFn rest
    (fun r' h => hvalid r' (List.mem_cons_of_mem r h))
    (fun r' h => hempty r' (List.mem_cons_of_mem r h)) _

/-- Helper for C6: the scan loop returns (and the caller caches) the parsed
data of the first report whose CSV parses to at least one data row, whatever
fallback has accumulated. -/
theorem scanReports_first_nonempty {α : Type} (download : String → String)
    (parseFn : List String → List (List String) → List α)
    (pre : List ReportRef) (r : ReportRef) (post : List ReportRef)
    (hvalid : ∀ r' ∈ pre, r'.id ≠ "" ∧ r'.downloadUrl ≠ "")
    (hempty : ∀ r' ∈ pre, (parsedReportOf download parseFn r').data = [])
    (hrvalid : r.id ≠ "" ∧ r.downloadUrl ≠ "")
    (hrdata : (parsedReportOf download parseFn r).data ≠ []) :
    ∀ fb, scanReports download parseFn (pre ++ r :: post) fb =
      some (parsedReportOf download parseFn r) := by
  induction pre with
  | nil =>
      intro fb
      have hskip : (r.downloadUrl == "" || r.id == "") = false := by
        simp [hrvalid.1, hrvalid.2]
      have hlen : ((parsedReportOf download parseFn r).data.length != 0) = true := by
        simp [hrdata]
      rw [List.nil_append]
      unfold scanReports
      dsimp only
      rw [hskip]
      simp only [Bool.false_eq_true, if_false, hlen, if_true]
  | cons p pre' ih =>
      intro fb
      have hp := hvalid p (List.mem_cons_self p pre')
      have hskip : (p.downloadUrl == "" || p.id == "") = false := by
        simp [hp.1, hp.2]
      have hpe : (parsedReportOf download parseFn p).data = [] :=
        hempty p (List.mem_cons_self p pre')
      have ihv : ∀ r' ∈ pre', r'.id ≠ "" ∧ r'.downloadUrl ≠ "" :=
        fun r' h => hvalid r' (List.mem_cons_of_mem p h)
      have ihe : ∀ r' ∈ pre', (parsedReportOf download parseFn r').data = [] :=
        fun r' h => hempty r' (List.mem_cons_of_mem p h)
      rw [List.cons_append]
      unfold scanReports
      dsimp only
      rw [hskip]
      simp only [Bool.false_eq_true, if_false, hpe]
      exact ih ihv ihe _

/-- C6: with no matching cache entry, `getReportingDataForJob` sorts the
exports by time descending (a stable sort, so a permutation of the input),
scans only the 12 most recent, returns and caches the parsed rows of the
first scanned export with at least one data row, and when every scanned
export parses to zero rows it returns and caches the most recent empty one
rather than `null`. -/
theorem report_selection_spec {α : Type} (reports : List ReportRef)
    (download : String → String)
    (parseFn : List String → List (List String) → List α)
    (hvalid : ∀ r ∈ reports, r.id ≠ "" ∧ r.downloadUrl ≠ "") :
    List.Sorted reportTimeDesc (List.insertionSort reportTimeDesc reports) ∧
    (List.insertionSort reportTimeDesc reports).Perm reports ∧
    (∀ pre r post,
      (List.insertionSort reportTimeDesc reports).take 12 = pre ++ r :: post →
      (∀ r' ∈ pre, (parsedReportOf download parseFn r').data = []) →
      (parsedReportOf download parseFn r).data ≠ [] →
      getReportingDataForJob reports none download parseFn =
        (some (parsedReportOf download parseFn r),
          some (parsedReportOf download parseFn r))) ∧
    (∀ r rest,
      (List.insertionSort reportTimeDesc reports).take 12 = r :: rest →
      (∀ r' ∈ (List.insertionSort reportTimeDesc reports).take 12,
        (parsedReportOf download parseFn r').data = []) →
      getReportingDataForJob reports none download parseFn =
        (some (parsedReportOf download parseFn r),
          some (parsedReportOf download parseFn r))) := by
  have hmem : ∀ r, r ∈ (List.insertionSort reportTimeDesc reports).take 12 →
      r ∈ reports := by
    intro r hr
    exact (List.mem_insertionSort reportTimeDesc).mp (List.take_subset 12 _ hr)
  refine ⟨List.sorted_insertionSort reportTimeDesc reports,
    List.perm_insertionSort reportTimeDesc reports, ?_, ?_⟩
  · intro pre r post htake hpre hr
    have hne : List.insertionSort reportTimeDesc reports ≠ [] := by
      intro h0
      rw [h0] at htake
      simp at htake
    have hcond : ¬(((List.insertionSort reportTimeDesc reports).length == 0) = true) := by
      simp only [beq_iff_eq, List.length_eq_zero]
      exact hne
    unfold getReportingDataForJob
    dsimp only
    rw [if_neg hcond, htake, scanReports_first_nonempty download parseFn pre r post
      (fun r' h => hvalid r' (hmem r' (htake ▸ List.mem_append_left _ h)))
      hpre
      (hvalid r (hmem r (htake ▸ List.mem_append_right _ (List.mem_cons_self r post))))
      hr none]
  · intro r rest htake hempty
    have hne : List.insertionSort reportTimeDesc reports ≠ [] := by
      intro h0
      rw [h0] at htake
      simp at htake
    have hcond : ¬(((List.insertionSort reportTimeDesc reports).length == 0) = true) := by
      simp only [beq_iff_eq, List.length_eq_zero]
      exact hne
    unfold getReportingDataForJob
    dsimp only
    rw [if_neg hcond, htake, scanReports_all_empty_none download parseFn r rest
      (fun r' h => hvalid r' (hmem r' (htake ▸ h)))
      (fun r' h => hempty r' (htake ▸ h))]

/-- Witness for C6: the 3 most recent exports download to empty CSVs and
the 4th parses to 5 data rows; the 4th's parsed rows are returned and
cached. -/
theorem report_selection_spec_witness :
    getReportingDataForJob
        [⟨"r1", "u1", 40⟩, ⟨"r2", "u2", 30⟩, ⟨"r3", "u3", 20⟩, ⟨"r4", "u4", 10⟩]
        none
        (fun url => if url == "u4" then "h\na\nb\nc\nd\ne" else "")
        (fun _hdrs rows => rows) =
      (some ⟨"r4", 10, [["a"], ["b"], ["c"], ["d"], ["e"]]⟩,
        some ⟨"r4", 10, [["a"], ["b"], ["c"], ["d"], ["e"]]⟩) := by
  have h := (report_selection_spec
      [⟨"r1", "u1", 40⟩, ⟨"r2", "u2", 30⟩, ⟨"r3", "u3", 20⟩, ⟨"r4", "u4", 10⟩]
      (fun url => if url == "u4" then "h\na\nb\nc\nd\ne" else "")
      (fun _hdrs rows => rows)
      (by decide)).2.2.1
      [⟨"r1", "u1", 40⟩, ⟨"r2", "u2", 30⟩, ⟨"r3", "u3", 20⟩] ⟨"r4", "u4", 10⟩ []
      (by decide) (by decide) (by decide)
  exact h.trans (by decide)

/-- Helper for C5: rounding each element of a rational list changes its sum
by at most half per element. -/
theorem sum_round_cast_bound (xs : List ℚ) :
    |(xs.map fun x => ((round x : ℤ) : ℚ)).sum - xs.sum| ≤ xs.length / 2 := by
  induction xs with
  | nil => simp
  | cons x xs ih =>
      simp only [List.map_cons, List.sum_cons, List.length_cons]
      have harg : ((round x : ℤ) : ℚ) + (xs.map fun x => ((round x : ℤ) : ℚ)).sum
          - (x + xs.sum)
          = (((round x : ℤ) : ℚ) - x)
            + ((xs.map fun x => ((round x : ℤ) : ℚ)).sum - xs.sum) := by ring
      rw [harg]
      have h1 : |((round x : ℤ) : ℚ) - x| ≤ 1 / 2 := by
        rw [abs_sub_comm]
        exact abs_sub_round x
      calc |(((round x : ℤ) : ℚ) - x)
            + ((xs.map fun x => ((round x : ℤ) : ℚ)).sum - xs.sum)|
          ≤ |((round x : ℤ) : ℚ) - x|
            + |(xs.map fun x => ((round x : ℤ) : ℚ)).sum - xs.sum| := abs_add _ _
        _ ≤ 1 / 2 + xs.length / 2 := add_le_add h1 ih
        _ = (↑xs.length + 1) / 2 := by ring
        _ = (↑(xs.length + 1) : ℚ) / 2 := by push_cast; ring

/-- Helper for C5: dividing by a common denominator and scaling by 100
distributes over the list sum. -/
theorem sum_map_div_mul (vals : List ℚ) (T : ℚ) :
    (vals.map fun v => v / T * 100).sum = vals.sum / T * 100 := by
  induction vals with
  | nil => simp
  | cons v vs ih =>
      simp only [List.map_cons, List.sum_cons, ih]
      ring

/-- C5 (amended): for any non-empty magnitude map with nonnegative values
and positive total, both `buildPercentList` variants agree and produce a
list whose values sum to `100 ± (n-1)` for `n` labels, sorted descending by
value, with no negative entry.  (The claim as stated omits the
positive-total requirement; see the counterexample.) -/
theorem buildPercentList_spec (entries : List (String × ℚ))
    (hne : entries ≠ [])
    (hnn : ∀ e ∈ entries, 0 ≤ e.2)
    (hpos : 0 < (entries.map Prod.snd).sum) :
    buildPercentListReporting entries = buildPercentList entries ∧
    (100 - ((entries.length : ℤ) - 1) ≤
        ((buildPercentList entries).map PercentEntry.value).sum ∧
      ((buildPercentList entries).map PercentEntry.value).sum ≤
        100 + ((entries.length : ℤ) - 1)) ∧
    List.Sorted percentValueDesc (buildPercentList entries) ∧
    (∀ e ∈ buildPercentList entries, 0 ≤ e.value) := by
  have htot : (entries.map Prod.snd).sum ≠ 0 := ne_of_gt hpos
  have hbuild : buildPercentList entries =
      List.insertionSort percentValueDesc
        (entries.map fun e =>
          { label := e.1,
            value := round (e.2 / (entries.map Prod.snd).sum * 100) }) := by
    unfold buildPercentList
    dsimp only
    rw [if_neg htot]
  have hbuildR : buildPercentListReporting entries =
      List.insertionSort percentValueDesc
        (entries.map fun e =>
          { label := e.1,
            value := round (e.2 / (entries.map Prod.snd).sum * 100) }) := by
    unfold buildPercentListReporting
    dsimp only
    have hfun : (fun (e : String × ℚ) =>
        ({ label := e.1,
           value := if (entries.map Prod.snd).sum ≠ 0 then
              round (e.2 / (entries.map Prod.snd).sum * 100) else round e.2 } :
          PercentEntry)) =
        fun e => { label := e.1,
                   value := round (e.2 / (entries.map Prod.snd).sum * 100) } := by
      funext e
      simp [htot]
    rw [hfun]
  have hperm : (buildPercentList entries).Perm
      (entries.map fun e =>
        { label := e.1,
          value := round (e.2 / (entries.map Prod.snd).sum * 100) }) := by
    rw [hbuild]
    exact List.perm_insertionSort _ _
  have hsum_eq : ((buildPercentList entries).map PercentEntry.value).sum =
      (((entries.map Prod.snd).map fun v =>
          round (v / (entries.map Prod.snd).sum * 100)).sum) := by
    rw [(hperm.map PercentEntry.value).sum_eq]
    rw [List.map_map, List.map_map]
    rfl
  refine ⟨hbuildR.trans hbuild.symm, ?_, ?_, ?_⟩
  · -- sum bounds
    by_cases h1 : entries.length = 1
    · obtain ⟨e, he⟩ := List.length_eq_one.mp h1
      subst he
      have he2 : e.2 ≠ 0 := by
        simp only [List.map_cons, List.map_nil, List.sum_cons, List.sum_nil,
          add_zero] at htot
        exact htot
      have hval : ((buildPercentList [e]).map PercentEntry.value).sum = 100 := by
        rw [hsum_eq]
        simp only [List.map_cons, List.map_nil, List.sum_cons, List.sum_nil, add_zero]
        rw [div_self he2, one_mul]
        rw [show ((100 : ℚ)) = ((100 : ℤ) : ℚ) from by norm_num, round_intCast]
      rw [hval]
      norm_num
    · have hn2 : 2 ≤ entries.length := by
        have h0 : entries.length ≠ 0 := fun h => hne (List.length_eq_zero.mp h)
        omega
      have hmm2 : (((entries.map Prod.snd).map fun v =>
            v / (entries.map Prod.snd).sum * 100).map fun x => round x) =
          ((entries.map Prod.snd).map fun v =>
            round (v / (entries.map Prod.snd).sum * 100)) := by
        rw [List.map_map]
        rfl
      have hsum100 : ((entries.map Prod.snd).map fun v =>
          v / (entries.map Prod.snd).sum * 100).sum = 100 := by
        rw [sum_map_div_mul, div_self htot]
        norm_num
      have hb := sum_round_cast_bound ((entries.map Prod.snd).map fun v =>
        v / (entries.map Prod.snd).sum * 100)
      rw [hsum100] at hb
      have hcast : ((((entries.map Prod.snd).map fun v =>
            round (v / (entries.map Prod.snd).sum * 100)).sum : ℤ) : ℚ) =
          ((((entries.map Prod.snd).map fun v =>
            v / (entries.map Prod.snd).sum * 100).map fun x =>
              ((round x : ℤ) : ℚ)).sum) := by
        rw [← hmm2]
        push_cast
        rw [List.map_map]
        rfl
      have hlen2 : (((entries.map Prod.snd).map fun v =>
          v / (entries.map Prod.snd).sum * 100).length : ℚ) = (entries.length : ℚ) := by
        rw [List.length_map, List.length_map]
      rw [hlen2] at hb
      have habs := abs_le.mp hb
      have hhalf : (entries.length : ℚ) / 2 ≤ (entries.length : ℚ) - 1 := by
        have h2 : (2 : ℚ) ≤ (entries.length : ℚ) := by exact_mod_cast hn2
        linarith
      constructor
      · have hq : (100 : ℚ) - ((entries.length : ℚ) - 1) ≤
            ((((buildPercentList entries).map PercentEntry.value).sum : ℤ) : ℚ) := by
          rw [hsum_eq, hcast]
          have := habs.1
          linarith
        exact_mod_cast hq
      · have hq : ((((buildPercentList entries).map PercentEntry.value).sum : ℤ) : ℚ) ≤
            100 + ((entries.length : ℚ) - 1) := by
          rw [hsum_eq, hcast]
          have := habs.2
          linarith
        exact_mod_cast hq
  · rw [hbuild]
    exact List.sorted_insertionSort percentValueDesc _
  · intro x hx
    rw [hbuild] at hx
    have hx' := (List.mem_insertionSort percentValueDesc).mp hx
    obtain ⟨e, he, hfe⟩ := List.mem_map.mp hx'
    have h0 : (0 : ℚ) ≤ e.2 / (entries.map Prod.snd).sum * 100 := by
      have := hnn e he
      positivity
    rw [← hfe]
    rw [round_eq]
    have h12 : (0 : ℚ) ≤ e.2 / (entries.map Prod.snd).sum * 100 + 1 / 2 := by linarith
    exact Int.le_floor.mpr (by exact_mod_cast h12)

/-- Witness for C5: the map `a ↦ 1, b ↦ 3` (total 4). -/
theorem buildPercentList_spec_witness :
    buildPercentListReporting [("a", (1 : ℚ)), ("b", 3)] =
        buildPercentList [("a", (1 : ℚ)), ("b", 3)] ∧
    (100 - (([("a", (1 : ℚ)), ("b", 3)].length : ℤ) - 1) ≤
        ((buildPercentList [("a", (1 : ℚ)), ("b", 3)]).map PercentEntry.value).sum ∧
      ((buildPercentList [("a", (1 : ℚ)), ("b", 3)]).map PercentEntry.value).sum ≤
        100 + (([("a", (1 : ℚ)), ("b", 3)].length : ℤ) - 1)) ∧
    List.Sorted percentValueDesc (buildPercentList [("a", (1 : ℚ)), ("b", 3)]) ∧
    (∀ e ∈ buildPercentList [("a", (1 : ℚ)), ("b", 3)], 0 ≤ e.value) :=
  buildPercentList_spec [("a", (1 : ℚ)), ("b", 3)] (by simp) (by norm_num) (by norm_num)

/-- C5 counterexample: the non-empty all-zero magnitude map `a ↦ 0` makes
both variants produce a list summing to 0, outside `100 ± (n-1)`: the
analytics variant returns `[]` and the reporting variant rounds the raw
magnitude. -/
theorem buildPercentList_zero_total_breaks_sum :
    ¬(100 - (([("a", (0 : ℚ))].length : ℤ) - 1) ≤
        ((buildPercentList [("a", (0 : ℚ))]).map PercentEntry.value).sum ∧
      ((buildPercentList [("a", (0 : ℚ))]).map PercentEntry.value).sum ≤
        100 + (([("a", (0 : ℚ))].length : ℤ) - 1)) ∧
    ¬(100 - (([("a", (0 : ℚ))].length : ℤ) - 1) ≤
        ((buildPercentListReporting [("a", (0 : ℚ))]).map PercentEntry.value).sum ∧
      ((buildPercentListReporting [("a", (0 : ℚ))]).map PercentEntry.value).sum ≤
        100 + (([("a", (0 : ℚ))].length : ℤ) - 1)) := by
  have h1 : buildPercentList [("a", (0 : ℚ))] = [] := by
    unfold buildPercentList
    norm_num
  have h2 : buildPercentListReporting [("a", (0 : ℚ))] = [{ label := "a", value := 0 }] := by
    unfold buildPercentListReporting
    norm_num [List.insertionSort, List.orderedInsert]
  refine ⟨?_, ?_⟩
  · rw [h1]
    decide
  · rw [h2]
    decide

end Fixated
